import Mathlib

/-
Verification of the "Apply Mesh Operator to Selection" script
(scripts/edit_mode/ApplyMeshOperatorToSelection.py).

The script is embedded shallowly: the edit-mesh is the per-kind selection
flags of its elements, host calls made by the script are recorded as an
event trace, and the host-supplied mesh operator is an arbitrary function
from parameters and mesh state to an optional new state (none models the
operator raising an exception).
-/

namespace ApplyMeshOp

/-- Selection state of the edit-mesh: one Boolean selection flag per element,
indexed by element index, for each of the three element kinds the host
exposes (bm.verts, bm.edges, bm.faces). -/
structure Mesh where
  verts : List Bool
  edges : List Bool
  faces : List Bool
deriving Repr, DecidableEq, Inhabited

/-- Parameter dictionary (PARAMS) passed through to the mesh operator. -/
abbrev Params := List (String × String)

/-- The operator reference passed as ACTION: whether it is callable, and the
namespaced identifier returned by idname_py(). -/
structure Action where
  isCallable : Bool
  idname : String
deriving Repr, DecidableEq

/-- Host-owned semantics of invoking the configured operator: given the
parameters and the current edit-mesh state, it returns the new state, or
none when the operator raises an exception. -/
abbrev OpSem := Params → Mesh → Option Mesh

/-- Host calls and console output observable during run(). -/
inductive Event where
  | deselectAll : Event
  | selectSingle (kind : String) (idx : Nat) : Event
  | invoke (idname : String) (params : Params) (meshAtCall : Mesh) : Event
  | consolePrint (s : String) : Event
deriving Repr, DecidableEq

/-- Exceptions run() can raise: the empty-selection UserWarning, an
IndexError from indexed element access, an AttributeError from getattr on
an unknown kind, and an exception propagating out of the operator call. -/
inductive RunError where
  | emptySelection : RunError
  | indexError : RunError
  | attrError : RunError
  | opException : RunError
deriving Repr, DecidableEq

/-- Exceptions __init__ can raise: EnvironmentError (not in edit mode),
NameError (bad SELECTION_TYPE), TypeError (bad ACTION). -/
inductive InitError where
  | envError : InitError
  | nameError : InitError
  | typeError : InitError
deriving Repr, DecidableEq

/-- Host calls made during construction (__read_selection). -/
inductive InitEvent where
  | modeSet (mode : String) : InitEvent
  | meshRead : InitEvent
deriving Repr, DecidableEq

/-- The component state: the three configuration inputs, the verbose flag,
and the selection_ attribute holding the captured snapshot. -/
structure Applier where
  sel_type : String
  action : Action
  param_dict : Params
  verbose : Bool
  selection : List Nat
deriving Repr, DecidableEq

/-- Embedding of __init__: environment check, field setup,
__validate_selection_type, __validate_action, then __read_selection
(the first mesh read, recorded in the init trace). -/
def init (mode : String) (sel_type : String) (action : Action)
    (param_dict : Params) (verbose : Bool) :
    Except InitError Applier × List InitEvent :=
  if mode = "EDIT" then
    if sel_type ∈ (["verts", "edges", "faces"] : List String) then
      if action.isCallable then
        if (action.idname.splitOn ".").headD "" = "mesh" then
          (Except.ok ⟨sel_type, action, param_dict, verbose, []⟩,
            [InitEvent.modeSet "OBJECT", InitEvent.modeSet "EDIT", InitEvent.meshRead])
        else (Except.error InitError.typeError, [])
      else (Except.error InitError.typeError, [])
    else (Except.error InitError.nameError, [])
  else (Except.error InitError.envError, [])

/-- Embedding of getattr(self.bm_, self.sel_type_): the selection flags of
the requested kind, or none (AttributeError) for an unknown kind. -/
def kindGet? (m : Mesh) (k : String) : Option (List Bool) :=
  if k = "verts" then some m.verts
  else if k = "edges" then some m.edges
  else if k = "faces" then some m.faces
  else none

/-- Replace the selection flags of the given kind. -/
def kindSet (m : Mesh) (k : String) (fl : List Bool) : Mesh :=
  if k = "verts" then { m with verts := fl }
  else if k = "edges" then { m with edges := fl }
  else { m with faces := fl }

/-- All flags of one kind cleared, as bpy.ops.mesh.select_all DESELECT does. -/
def clearFlags (l : List Bool) : List Bool := List.replicate l.length false

/-- The mesh after select_all with action DESELECT: every element of every
kind deselected. -/
def allDeselected (m : Mesh) : Mesh :=
  ⟨clearFlags m.verts, clearFlags m.edges, clearFlags m.faces⟩

/-- Embedding of the capture comprehension: the indices p.index of the
elements p with p.select == True, in the host's iteration order. -/
def selectedIdxs (fl : List Bool) : List Nat :=
  (List.range fl.length).filter (fun i => fl.getD i false)

/-- Indices of the selected elements of the given kind of a mesh. -/
def kindSelected (m : Mesh) (k : String) : List Nat :=
  selectedIdxs ((kindGet? m k).getD [])

/-- Embedding of __store_selection: capture the selection snapshot into
selection_, raise UserWarning when it is empty, print when verbose. -/
def store_selection (a : Applier) (m : Mesh) :
    Applier × List Event × Option RunError :=
  match kindGet? m a.sel_type with
  | none => (a, [], some RunError.attrError)
  | some fl =>
    let sel := selectedIdxs fl
    let a' := { a with selection := sel }
    if sel.length = 0 then (a', [], some RunError.emptySelection)
    else
      (a',
        if a.verbose then
          [Event.consolePrint ("Selected " ++ toString sel.length ++ " " ++ a.sel_type)]
        else [],
        none)

/-- Embedding of __deselect_all: optional verbose print, then the host
deselect-all call followed by the update push. -/
def deselect_all (a : Applier) (m : Mesh) : List Event × Mesh :=
  ((if a.verbose then [Event.consolePrint "Deselect all faces"] else [])
      ++ [Event.deselectAll],
    allDeselected m)

/-- Embedding of __select_single_instance: ensure_lookup_table, set the
select flag of the element at idx (IndexError when idx is out of range),
then push the update. -/
def select_single_instance (a : Applier) (m : Mesh) (idx : Nat) :
    List Event × Mesh × Option RunError :=
  match kindGet? m a.sel_type with
  | none => ([], m, some RunError.attrError)
  | some fl =>
    if idx < fl.length then
      ([Event.selectSingle a.sel_type idx],
        kindSet m a.sel_type (fl.set idx true), none)
    else ([], m, some RunError.indexError)

/-- Embedding of the loop body of __execute_action_on_selection: for each
captured index, select that single element, print when verbose, invoke the
operator with the configured parameters, then deselect all; any exception
aborts the remaining iterations. -/
def execute_action_on_selection (a : Applier) (opSem : OpSem) :
    List Nat → Mesh → List Event × Mesh × Option RunError
  | [], m => ([], m, none)
  | idx :: rest, m =>
    match select_single_instance a m idx with
    | (evs, m', some e) => (evs, m', some e)
    | (evs, m', none) =>
      let pevs := if a.verbose then
          [Event.consolePrint
            ("Executing " ++ a.action.idname ++ " on " ++ a.sel_type ++ toString idx)]
        else []
      match opSem a.param_dict m' with
      | none =>
        (evs ++ pevs ++ [Event.invoke a.action.idname a.param_dict m'], m',
          some RunError.opException)
      | some m'' =>
        let d := deselect_all a m''
        let r := execute_action_on_selection a opSem rest d.2
        (evs ++ pevs ++ [Event.invoke a.action.idname a.param_dict m'] ++ d.1 ++ r.1,
          r.2.1, r.2.2)

/-- Embedding of __restore_selection: re-select each captured index in
captured order, with no deselection in between. -/
def restore_selection (a : Applier) :
    List Nat → Mesh → List Event × Mesh × Option RunError
  | [], m => ([], m, none)
  | idx :: rest, m =>
    match select_single_instance a m idx with
    | (evs, m', some e) => (evs, m', some e)
    | (evs, m', none) =>
      let r := restore_selection a rest m'
      (evs ++ r.1, r.2.1, r.2.2)

/-- Outcome of a run: the final component state, the trace of host calls
and console output up to completion or the raised exception, the edit-mesh
state reached, and the exception if one propagated out of run(). -/
structure RunResult where
  applier : Applier
  events : List Event
  mesh : Mesh
  error : Option RunError
deriving Repr, DecidableEq

/-- Embedding of run(): __store_selection, __deselect_all,
__execute_action_on_selection, __restore_selection, each phase skipped
once an exception has been raised. -/
def run (a : Applier) (opSem : OpSem) (m : Mesh) : RunResult :=
  match store_selection a m with
  | (a', sevs, some e) => ⟨a', sevs, m, some e⟩
  | (a', sevs, none) =>
    let d := deselect_all a' m
    match execute_action_on_selection a' opSem a'.selection d.2 with
    | (eevs, m2, some e) => ⟨a', sevs ++ d.1 ++ eevs, m2, some e⟩
    | (eevs, m2, none) =>
      let r := restore_selection a' a'.selection m2
      ⟨a', sevs ++ d.1 ++ eevs ++ r.1, r.2.1, r.2.2⟩

/-- The meshes observed by the operator, one per invocation, in call order. -/
def invokedMeshes (evs : List Event) : List Mesh :=
  evs.filterMap (fun e =>
    match e with
    | Event.invoke _ _ mc => some mc
    | _ => none)

/-- Whether an event is console output rather than a host call. -/
def isPrint : Event → Bool
  | Event.consolePrint _ => true
  | _ => false

/-- The host calls of a trace, console output removed. -/
def hostCalls (evs : List Event) : List Event :=
  evs.filter (fun e => !isPrint e)

/-- A no-op-equivalent operator: no topology change and no selection change
of its own. -/
def opNoop : OpSem := fun _ m => some m

/-- An operator that always raises. -/
def opRaise : OpSem := fun _ _ => none

/-- ValidKind k states that k is one of the three selection kinds accepted
by __validate_selection_type. -/
abbrev ValidKind (k : String) : Prop :=
  k = "verts" ∨ k = "edges" ∨ k = "faces"

/-- The example operator reference from the CONFIG section
(bpy.ops.mesh.inset). -/
def exampleAction : Action := ⟨true, "mesh.inset"⟩

/-- A concrete component configured as in the CONFIG section, acting on
faces. -/
def exampleApplier : Applier :=
  ⟨"faces", exampleAction, [("thickness", "0.05")], false, []⟩

/-- A concrete mesh with two vertices, three edges and three faces, faces 0
and 2 selected. -/
def exampleMesh : Mesh :=
  ⟨[false, false], [false, false, false], [true, false, true]⟩

/-- A concrete mesh with nothing selected. -/
def emptyMesh : Mesh :=
  ⟨[false, false], [false, false, false], [false, false, false]⟩

end ApplyMeshOp

namespace ApplyMeshOp

lemma validKind_iff_mem {k : String} :
    ValidKind k ↔ k ∈ (["verts", "edges", "faces"] : List String) := by
  simp [ValidKind]

lemma kindGet?_eq_of_valid (m : Mesh) {k : String} (hk : ValidKind k) :
    ∃ fl, kindGet? m k = some fl := by
  rcases hk with rfl | rfl | rfl <;> simp [kindGet?]

lemma kindGet?_kindSet_self (m : Mesh) {k : String} (hk : ValidKind k)
    (fl : List Bool) : kindGet? (kindSet m k fl) k = some fl := by
  rcases hk with rfl | rfl | rfl <;> simp [kindGet?, kindSet]

lemma kindGet?_allDeselected (m : Mesh) (k : String) :
    kindGet? (allDeselected m) k = (kindGet? m k).map clearFlags := by
  unfold kindGet? allDeselected
  split_ifs <;> rfl

lemma clearFlags_length (l : List Bool) : (clearFlags l).length = l.length :=
  List.length_replicate l.length false

lemma getD_clearFlags (l : List Bool) (j : Nat) :
    (clearFlags l).getD j false = false := by
  rw [clearFlags, List.getD_eq_getElem?_getD, List.getElem?_replicate]
  split_ifs <;> rfl

lemma mem_selectedIdxs {fl : List Bool} {i : Nat} :
    i ∈ selectedIdxs fl ↔ fl.getD i false = true := by
  unfold selectedIdxs
  rw [List.mem_filter, List.mem_range]
  constructor
  · rintro ⟨_, h⟩
    exact h
  · intro h
    refine ⟨?_, h⟩
    by_contra hlt
    rw [List.getD_eq_getElem?_getD, List.getElem?_eq_none (by omega)] at h
    simp at h

lemma mem_selectedIdxs_lt {fl : List Bool} {i : Nat} (h : i ∈ selectedIdxs fl) :
    i < fl.length := by
  unfold selectedIdxs at h
  rw [List.mem_filter, List.mem_range] at h
  exact h.1

lemma getD_set_lt {fl : List Bool} {idx : Nat} (h : idx < fl.length) (b : Bool)
    (j : Nat) :
    (fl.set idx b).getD j false = if idx = j then b else fl.getD j false := by
  rw [List.getD_eq_getElem?_getD, List.getElem?_set, List.getD_eq_getElem?_getD]
  split_ifs with h1 <;> simp [h]

lemma filter_range_beq {n idx : Nat} (h : idx < n) :
    (List.range n).filter (fun i => i == idx) = [idx] := by
  induction n with
  | zero => omega
  | succ n ih =>
    rw [List.range_succ, List.filter_append]
    rcases Nat.lt_or_ge idx n with h' | h'
    · rw [ih h']
      have hne : (n == idx) = false := by
        simp only [beq_eq_false_iff_ne, ne_eq]
        omega
      simp [hne]
    · have hidx : idx = n := by omega
      subst hidx
      have hnil : (List.range idx).filter (fun i => i == idx) = [] := by
        rw [List.filter_eq_nil_iff]
        intro a ha
        rw [List.mem_range] at ha
        simp only [beq_iff_eq]
        omega
      simp [hnil]

lemma selectedIdxs_allFalse_set {fl : List Bool}
    (hall : ∀ j, fl.getD j false = false) {idx : Nat} (hidx : idx < fl.length) :
    selectedIdxs (fl.set idx true) = [idx] := by
  unfold selectedIdxs
  rw [List.length_set]
  rw [List.filter_congr (q := fun i => i == idx) ?_]
  · exact filter_range_beq hidx
  · intro i _
    rw [getD_set_lt hidx]
    split_ifs with hii
    · subst hii
      simp
    · rw [hall i]
      simp only [beq_iff_eq]
      symm
      simp
      omega

lemma eq_of_getD_eq {l₁ l₂ : List Bool} (hlen : l₁.length = l₂.length)
    (h : ∀ j, l₁.getD j false = l₂.getD j false) : l₁ = l₂ := by
  apply List.ext_getElem hlen
  intro n h₁ h₂
  have hn := h n
  rwa [List.getD_eq_getElem l₁ false h₁, List.getD_eq_getElem l₂ false h₂] at hn

lemma kindSelected_eq {m : Mesh} {k : String} {fl : List Bool}
    (hfl : kindGet? m k = some fl) : kindSelected m k = selectedIdxs fl := by
  unfold kindSelected
  rw [hfl]
  rfl

end ApplyMeshOp

namespace ApplyMeshOp

lemma store_selection_of_nonempty {a : Applier} {m : Mesh} {fl : List Bool}
    (hfl : kindGet? m a.sel_type = some fl) (hne : selectedIdxs fl ≠ []) :
    store_selection a m =
      ({ a with selection := selectedIdxs fl },
        (if a.verbose then
          [Event.consolePrint
            ("Selected " ++ toString (selectedIdxs fl).length ++ " " ++ a.sel_type)]
         else []),
        none) := by
  have hlen : ¬ (selectedIdxs fl).length = 0 := by
    simpa using hne
  unfold store_selection
  rw [hfl]
  simp [hlen]

lemma store_selection_of_empty {a : Applier} {m : Mesh} {fl : List Bool}
    (hfl : kindGet? m a.sel_type = some fl) (he : selectedIdxs fl = []) :
    store_selection a m =
      ({ a with selection := [] }, [], some RunError.emptySelection) := by
  unfold store_selection
  rw [hfl]
  simp [he]

lemma store_selection_fst_config (a : Applier) (m : Mesh) :
    ((store_selection a m).1).sel_type = a.sel_type ∧
    ((store_selection a m).1).action = a.action ∧
    ((store_selection a m).1).param_dict = a.param_dict ∧
    ((store_selection a m).1).verbose = a.verbose := by
  unfold store_selection
  rcases hq : kindGet? m a.sel_type with _ | fl
  · simp
  · simp only
    split_ifs <;> simp

lemma store_selection_error_cases (a : Applier) (m : Mesh) :
    (store_selection a m).2.2 = none ∨
    (store_selection a m).2.2 = some RunError.attrError ∨
    (store_selection a m).2.2 = some RunError.emptySelection := by
  unfold store_selection
  rcases hq : kindGet? m a.sel_type with _ | fl
  · simp
  · simp only
    split_ifs <;> simp

lemma select_single_error_cases (a : Applier) (m : Mesh) (idx : Nat) :
    (select_single_instance a m idx).2.2 = none ∨
    (select_single_instance a m idx).2.2 = some RunError.attrError ∨
    (select_single_instance a m idx).2.2 = some RunError.indexError := by
  unfold select_single_instance
  rcases hq : kindGet? m a.sel_type with _ | fl
  · simp
  · simp only
    split_ifs <;> simp

lemma run_applier_eq (a : Applier) (opSem : OpSem) (m : Mesh) :
    (run a opSem m).applier = (store_selection a m).1 := by
  unfold run
  rcases hs : store_selection a m with ⟨a', sevs, err⟩
  cases err with
  | some e => rfl
  | none =>
    simp only
    rcases he : execute_action_on_selection a' opSem a'.selection
        (deselect_all a' m).2 with ⟨eevs, m2, err2⟩
    cases err2 with
    | some e => rfl
    | none => rfl

end ApplyMeshOp

namespace ApplyMeshOp

lemma select_single_none_spec {a : Applier} {m : Mesh} {fl : List Bool}
    (hfl : kindGet? m a.sel_type = some fl) {idx : Nat} (hidx : idx < fl.length) :
    select_single_instance a m idx =
      ([Event.selectSingle a.sel_type idx],
        kindSet m a.sel_type (fl.set idx true), none) := by
  unfold select_single_instance
  rw [hfl]
  simp [hidx]

lemma select_single_oob_spec {a : Applier} {m : Mesh} {fl : List Bool}
    (hfl : kindGet? m a.sel_type = some fl) {idx : Nat} (hidx : ¬ idx < fl.length) :
    select_single_instance a m idx = ([], m, some RunError.indexError) := by
  unfold select_single_instance
  rw [hfl]
  simp [hidx]

lemma invokedMeshes_append (l₁ l₂ : List Event) :
    invokedMeshes (l₁ ++ l₂) = invokedMeshes l₁ ++ invokedMeshes l₂ :=
  List.filterMap_append l₁ l₂ _

lemma invokedMeshes_if_print (c : Bool) (s : String) :
    invokedMeshes (if c then [Event.consolePrint s] else []) = [] := by
  cases c <;> rfl

lemma invokedMeshes_deselect (a : Applier) (m : Mesh) :
    invokedMeshes (deselect_all a m).1 = [] := by
  unfold deselect_all
  cases hv : a.verbose <;> rfl

lemma invokedMeshes_select_single (a : Applier) (m : Mesh) (idx : Nat) :
    invokedMeshes (select_single_instance a m idx).1 = [] := by
  unfold select_single_instance
  rcases hq : kindGet? m a.sel_type with _ | fl
  · rfl
  · simp only
    split_ifs <;> rfl

lemma restore_invokes_nil (a : Applier) :
    ∀ (l : List Nat) (m : Mesh), invokedMeshes (restore_selection a l m).1 = [] := by
  intro l
  induction l with
  | nil => intro m; rfl
  | cons idx rest ih =>
    intro m
    unfold restore_selection
    rcases hs : select_single_instance a m idx with ⟨evs, m', err⟩
    have hevs : invokedMeshes evs = [] := by
      have h := invokedMeshes_select_single a m idx
      rw [hs] at h
      exact h
    cases err with
    | some e => exact hevs
    | none =>
      simp only
      rw [invokedMeshes_append, hevs, ih m']
      rfl

lemma restore_error_ne_op (a : Applier) :
    ∀ (l : List Nat) (m : Mesh),
      (restore_selection a l m).2.2 ≠ some RunError.opException := by
  intro l
  induction l with
  | nil =>
    intro m h
    simp [restore_selection] at h
  | cons idx rest ih =>
    intro m
    unfold restore_selection
    rcases hs : select_single_instance a m idx with ⟨evs, m', err⟩
    cases err with
    | some e =>
      have hc := select_single_error_cases a m idx
      rw [hs] at hc
      simp only at hc
      intro hcon
      simp only at hcon
      rcases hc with h1 | h1 | h1 <;> rw [h1] at hcon <;> simp at hcon
    | none =>
      simpa using ih m'

lemma restore_selection_spec (a : Applier) (hk : ValidKind a.sel_type) :
    ∀ (l : List Nat) (m : Mesh) (fl : List Bool),
      kindGet? m a.sel_type = some fl →
      (∀ i ∈ l, i < fl.length) →
      (restore_selection a l m).1 = l.map (Event.selectSingle a.sel_type) ∧
      (restore_selection a l m).2.2 = none ∧
      ∃ fl', kindGet? ((restore_selection a l m).2.1) a.sel_type = some fl' ∧
        fl'.length = fl.length ∧
        (∀ j, fl'.getD j false = (fl.getD j false || decide (j ∈ l))) := by
  intro l
  induction l with
  | nil =>
    intro m fl hfl _
    refine ⟨rfl, rfl, fl, hfl, rfl, ?_⟩
    intro j
    simp
  | cons idx rest ih =>
    intro m fl hfl hlt
    have hidx : idx < fl.length := hlt idx (List.mem_cons_self idx rest)
    unfold restore_selection
    rw [select_single_none_spec hfl hidx]
    simp only
    have hfl2 : kindGet? (kindSet m a.sel_type (fl.set idx true)) a.sel_type
        = some (fl.set idx true) := kindGet?_kindSet_self m hk _
    have hrest : ∀ i ∈ rest, i < (fl.set idx true).length := by
      intro i hi
      rw [List.length_set]
      exact hlt i (List.mem_cons_of_mem _ hi)
    obtain ⟨hev, herr, fl', hget, hlen, hchar⟩ :=
      ih (kindSet m a.sel_type (fl.set idx true)) (fl.set idx true) hfl2 hrest
    refine ⟨?_, ?_, fl', ?_, ?_, ?_⟩
    · rw [hev]
      rfl
    · exact herr
    · exact hget
    · rw [hlen, List.length_set]
    · intro j
      rw [hchar j, getD_set_lt hidx]
      by_cases hji : idx = j
      · subst hji
        simp [List.mem_cons]
      · have : (j ∈ idx :: rest) ↔ (j ∈ rest) := by
          rw [List.mem_cons]
          constructor
          · rintro (h | h)
            · exact absurd h.symm hji
            · exact h
          · exact fun h => Or.inr h
        simp [hji, this]

end ApplyMeshOp

namespace ApplyMeshOp

lemma deselect_all_snd (a : Applier) (m : Mesh) :
    (deselect_all a m).2 = allDeselected m := rfl

lemma invokedMeshes_nil : invokedMeshes [] = [] := rfl

lemma invokedMeshes_selectSingle_cons (k : String) (i : Nat) (rest : List Event) :
    invokedMeshes (Event.selectSingle k i :: rest) = invokedMeshes rest := rfl

lemma invokedMeshes_invoke_cons (n : String) (p : Params) (mc : Mesh)
    (rest : List Event) :
    invokedMeshes (Event.invoke n p mc :: rest) = mc :: invokedMeshes rest := rfl

lemma exec_noop_spec (a : Applier) (opSem : OpSem)
    (hop : ∀ p mm, opSem p mm = some mm) (hk : ValidKind a.sel_type) :
    ∀ (l : List Nat) (m : Mesh) (fl : List Bool),
      kindGet? m a.sel_type = some fl →
      (∀ j, fl.getD j false = false) →
      (∀ i ∈ l, i < fl.length) →
      (execute_action_on_selection a opSem l m).2.2 = none ∧
      ∃ fl', kindGet? ((execute_action_on_selection a opSem l m).2.1) a.sel_type
          = some fl' ∧
        fl'.length = fl.length ∧ (∀ j, fl'.getD j false = false) := by
  intro l
  induction l with
  | nil =>
    intro m fl hfl hall _
    exact ⟨rfl, fl, hfl, rfl, hall⟩
  | cons idx rest ih =>
    intro m fl hfl hall hlt
    have hidx : idx < fl.length := hlt idx (List.mem_cons_self idx rest)
    unfold execute_action_on_selection
    rw [select_single_none_spec hfl hidx]
    simp only
    rw [hop]
    simp only [deselect_all_snd]
    have hd : kindGet? (allDeselected (kindSet m a.sel_type (fl.set idx true)))
        a.sel_type = some (clearFlags (fl.set idx true)) := by
      rw [kindGet?_allDeselected, kindGet?_kindSet_self m hk]
      rfl
    have hrest : ∀ i ∈ rest, i < (clearFlags (fl.set idx true)).length := by
      intro i hi
      rw [clearFlags_length, List.length_set]
      exact hlt i (List.mem_cons_of_mem _ hi)
    obtain ⟨herr, fl', hget, hlen, hall'⟩ :=
      ih _ _ hd (fun j => getD_clearFlags _ j) hrest
    refine ⟨herr, fl', hget, ?_, hall'⟩
    rw [hlen, clearFlags_length, List.length_set]

lemma exec_invokes_spec (a : Applier) (opSem : OpSem) (hk : ValidKind a.sel_type) :
    ∀ (l : List Nat) (m : Mesh) (fl : List Bool),
      kindGet? m a.sel_type = some fl →
      (∀ j, fl.getD j false = false) →
      (invokedMeshes (execute_action_on_selection a opSem l m).1).length ≤ l.length ∧
      ∀ j, j < (invokedMeshes (execute_action_on_selection a opSem l m).1).length →
        kindSelected
            ((invokedMeshes (execute_action_on_selection a opSem l m).1).getD j default)
            a.sel_type
          = [l.getD j 0] := by
  intro l
  induction l with
  | nil =>
    intro m fl hfl hall
    constructor
    · simp [execute_action_on_selection, invokedMeshes_nil]
    · intro j hj
      simp [execute_action_on_selection, invokedMeshes_nil] at hj
  | cons idx rest ih =>
    intro m fl hfl hall
    unfold execute_action_on_selection
    by_cases hidx : idx < fl.length
    · rw [select_single_none_spec hfl hidx]
      simp only
      have hm1 : kindSelected (kindSet m a.sel_type (fl.set idx true)) a.sel_type
          = [idx] := by
        rw [kindSelected_eq (kindGet?_kindSet_self m hk _)]
        exact selectedIdxs_allFalse_set hall hidx
      cases hopr : opSem a.param_dict (kindSet m a.sel_type (fl.set idx true)) with
      | none =>
        simp only [invokedMeshes_append, invokedMeshes_if_print,
          invokedMeshes_selectSingle_cons, invokedMeshes_invoke_cons,
          invokedMeshes_nil, List.nil_append, List.append_nil]
        constructor
        · simp
        · intro j hj
          simp only [List.length_cons, List.length_nil] at hj
          have hj0 : j = 0 := by omega
          subst hj0
          simpa using hm1
      | some m2 =>
        simp only [deselect_all_snd]
        simp only [invokedMeshes_append, invokedMeshes_if_print,
          invokedMeshes_selectSingle_cons, invokedMeshes_invoke_cons,
          invokedMeshes_nil, invokedMeshes_deselect, List.nil_append,
          List.append_nil, List.cons_append, List.singleton_append]
        obtain ⟨g, hg⟩ := kindGet?_eq_of_valid m2 hk
        have hdg : kindGet? (allDeselected m2) a.sel_type = some (clearFlags g) := by
          rw [kindGet?_allDeselected, hg]
          rfl
        obtain ⟨hle, hinv⟩ :=
          ih (allDeselected m2) (clearFlags g) hdg (fun j => getD_clearFlags g j)
        constructor
        · simp only [List.length_cons]
          omega
        · intro j hj
          cases j with
          | zero =>
            simpa using hm1
          | succ j' =>
            simp only [List.getD_cons_succ]
            simp only [List.length_cons] at hj
            exact hinv j' (by omega)
    · rw [select_single_oob_spec hfl hidx]
      simp only
      constructor
      · simp [invokedMeshes_nil]
      · intro j hj
        simp [invokedMeshes_nil] at hj

end ApplyMeshOp

namespace ApplyMeshOp

lemma append_last {α : Type} {l₂ pre : List α} {x : α} (l₁ : List α)
    (h : l₂ = pre ++ [x]) : l₁ ++ l₂ = (l₁ ++ pre) ++ [x] := by
  rw [h, List.append_assoc]

lemma exec_opException_spec (a : Applier) (opSem : OpSem) :
    ∀ (l : List Nat) (m : Mesh),
      (execute_action_on_selection a opSem l m).2.2 = some RunError.opException →
      ∃ pre mc,
        (execute_action_on_selection a opSem l m).1 =
          pre ++ [Event.invoke a.action.idname a.param_dict mc] ∧
        (execute_action_on_selection a opSem l m).2.1 = mc := by
  intro l
  induction l with
  | nil =>
    intro m h
    simp [execute_action_on_selection] at h
  | cons idx rest ih =>
    intro m
    unfold execute_action_on_selection
    rcases hs : select_single_instance a m idx with ⟨evs, m', err⟩
    cases err with
    | some e =>
      intro h
      have hc := select_single_error_cases a m idx
      rw [hs] at hc
      simp only at hc h
      rcases hc with h1 | h1 | h1 <;> rw [h1] at h <;> simp at h
    | none =>
      simp only
      cases hopr : opSem a.param_dict m' with
      | none =>
        intro _
        exact ⟨_, m', rfl, rfl⟩
      | some m2 =>
        intro h
        simp only at h ⊢
        obtain ⟨pre, mc, hev, hm⟩ := ih (deselect_all a m2).2 h
        exact ⟨_, mc, append_last _ hev, hm⟩

end ApplyMeshOp

namespace ApplyMeshOp

lemma select_single_verbose_eq {a₁ a₂ : Applier} (hst : a₁.sel_type = a₂.sel_type)
    (m : Mesh) (idx : Nat) :
    select_single_instance a₁ m idx = select_single_instance a₂ m idx := by
  unfold select_single_instance
  rw [hst]

lemma restore_verbose_eq {a₁ a₂ : Applier} (hst : a₁.sel_type = a₂.sel_type) :
    ∀ (l : List Nat) (m : Mesh),
      restore_selection a₁ l m = restore_selection a₂ l m := by
  intro l
  induction l with
  | nil => intro m; rfl
  | cons idx rest ih =>
    intro m
    unfold restore_selection
    rw [select_single_verbose_eq hst]
    rcases hs : select_single_instance a₂ m idx with ⟨evs, m', err⟩
    cases err with
    | some e => rfl
    | none =>
      simp only
      rw [ih m']

lemma hostCalls_append (l₁ l₂ : List Event) :
    hostCalls (l₁ ++ l₂) = hostCalls l₁ ++ hostCalls l₂ :=
  List.filter_append l₁ l₂

lemma hostCalls_if_print (c : Bool) (s : String) :
    hostCalls (if c then [Event.consolePrint s] else []) = [] := by
  cases c <;> rfl

lemma hostCalls_deselect (a : Applier) (m : Mesh) :
    hostCalls (deselect_all a m).1 = [Event.deselectAll] := by
  unfold deselect_all
  cases hv : a.verbose <;> rfl

lemma store_selection_of_none {a : Applier} {m : Mesh}
    (h : kindGet? m a.sel_type = none) :
    store_selection a m = (a, [], some RunError.attrError) := by
  unfold store_selection
  rw [h]

lemma run_of_store_err {a : Applier} {opSem : OpSem} {m : Mesh} {a' : Applier}
    {sevs : List Event} {e : RunError}
    (hs : store_selection a m = (a', sevs, some e)) :
    run a opSem m = ⟨a', sevs, m, some e⟩ := by
  unfold run
  rw [hs]

lemma run_of_store_ok {a : Applier} {opSem : OpSem} {m : Mesh} {a' : Applier}
    {sevs : List Event} (hs : store_selection a m = (a', sevs, none)) :
    run a opSem m =
      (match execute_action_on_selection a' opSem a'.selection
          (deselect_all a' m).2 with
      | (eevs, m2, some e) =>
        ⟨a', sevs ++ (deselect_all a' m).1 ++ eevs, m2, some e⟩
      | (eevs, m2, none) =>
        let r := restore_selection a' a'.selection m2
        ⟨a', sevs ++ (deselect_all a' m).1 ++ eevs ++ r.1, r.2.1, r.2.2⟩) := by
  unfold run
  rw [hs]

lemma exec_verbose_spec {a₁ a₂ : Applier} (hst : a₁.sel_type = a₂.sel_type)
    (hac : a₁.action = a₂.action) (hpd : a₁.param_dict = a₂.param_dict)
    (opSem : OpSem) :
    ∀ (l : List Nat) (m : Mesh),
      (execute_action_on_selection a₁ opSem l m).2 =
        (execute_action_on_selection a₂ opSem l m).2 ∧
      hostCalls (execute_action_on_selection a₁ opSem l m).1 =
        hostCalls (execute_action_on_selection a₂ opSem l m).1 := by
  intro l
  induction l with
  | nil => intro m; exact ⟨rfl, rfl⟩
  | cons idx rest ih =>
    intro m
    unfold execute_action_on_selection
    rw [select_single_verbose_eq hst]
    rcases hs : select_single_instance a₂ m idx with ⟨evs, m', err⟩
    cases err with
    | some e => exact ⟨rfl, rfl⟩
    | none =>
      simp only
      rw [hpd, hac, hst]
      cases hopr : opSem a₂.param_dict m' with
      | none =>
        constructor
        · rfl
        · rw [hostCalls_append, hostCalls_append, hostCalls_append,
            hostCalls_append, hostCalls_if_print, hostCalls_if_print]
      | some m2 =>
        simp only [deselect_all_snd]
        obtain ⟨h2, h1⟩ := ih (allDeselected m2)
        constructor
        · exact h2
        · rw [hostCalls_append, hostCalls_append, hostCalls_append,
            hostCalls_append, hostCalls_append, hostCalls_append,
            hostCalls_append, hostCalls_append, hostCalls_if_print,
            hostCalls_if_print, hostCalls_deselect, hostCalls_deselect, h1]

end ApplyMeshOp

namespace ApplyMeshOp

lemma decide_mem_selectedIdxs (fl : List Bool) (j : Nat) :
    decide (j ∈ selectedIdxs fl) = fl.getD j false := by
  rcases hb : fl.getD j false with _ | _
  · have hmem : ¬ (j ∈ selectedIdxs fl) := by
      rw [mem_selectedIdxs, hb]
      simp
    simp [hmem]
  · have hmem : j ∈ selectedIdxs fl := mem_selectedIdxs.mpr hb
    simp [hmem]

/-- Claim C5: construction outside mesh-edit mode fails with the environment
error before any other validation runs and before any mesh read (the init
trace is empty), whatever the other configuration inputs are. -/
theorem init_requires_edit_mode (mode sel_type : String) (action : Action)
    (param_dict : Params) (verbose : Bool) (h : mode ≠ "EDIT") :
    init mode sel_type action param_dict verbose =
      (Except.error InitError.envError, []) := by
  unfold init
  rw [if_neg h]

/-- Claim C5 witness: construction in object mode with an otherwise invalid
kind still reports the environment error with no mesh read. -/
theorem init_requires_edit_mode_witness :
    "OBJECT" ≠ "EDIT" ∧
    init "OBJECT" "bogus" exampleAction [] false =
      (Except.error InitError.envError, []) :=
  ⟨by decide,
    init_requires_edit_mode "OBJECT" "bogus" exampleAction [] false (by decide)⟩

/-- Claim C6: in edit mode, a selection kind outside verts, edges, faces
fails validation with the naming error before any mesh read occurs (the
init trace is empty), whatever the action is. -/
theorem invalid_selection_kind_rejected (mode sel_type : String)
    (action : Action) (param_dict : Params) (verbose : Bool)
    (hmode : mode = "EDIT") (hk : ¬ ValidKind sel_type) :
    init mode sel_type action param_dict verbose =
      (Except.error InitError.nameError, []) := by
  unfold init
  rw [if_pos hmode, if_neg (fun hmem => hk (validKind_iff_mem.mpr hmem))]

/-- Claim C6 witness: the kind "vertices" is rejected with the naming error
and an empty init trace. -/
theorem invalid_selection_kind_rejected_witness :
    "EDIT" = "EDIT" ∧ ¬ ValidKind "vertices" ∧
    init "EDIT" "vertices" exampleAction [] false =
      (Except.error InitError.nameError, []) :=
  ⟨rfl, by decide,
    invalid_selection_kind_rejected "EDIT" "vertices" exampleAction [] false
      rfl (by decide)⟩

/-- Claim C7: in edit mode with a valid selection kind, an action that is
not callable, or whose namespaced identifier does not start with the
segment "mesh" before the first dot, fails validation with the type
error. -/
theorem invalid_action_rejected (mode sel_type : String) (action : Action)
    (param_dict : Params) (verbose : Bool) (hmode : mode = "EDIT")
    (hk : ValidKind sel_type)
    (ha : action.isCallable = false ∨
      (action.idname.splitOn ".").headD "" ≠ "mesh") :
    init mode sel_type action param_dict verbose =
      (Except.error InitError.typeError, []) := by
  unfold init
  rw [if_pos hmode, if_pos (validKind_iff_mem.mp hk)]
  rcases ha with ha | ha
  · have hcal : ¬ (action.isCallable = true) := by
      rw [ha]
      simp
    rw [if_neg hcal]
  · by_cases hc : action.isCallable = true
    · rw [if_pos hc, if_neg ha]
    · rw [if_neg hc]

/-- Claim C7 witness: a non-callable action is rejected with the type
error. -/
theorem invalid_action_rejected_witness :
    ValidKind "faces" ∧ (Action.mk false "mesh.inset").isCallable = false ∧
    init "EDIT" "faces" (Action.mk false "mesh.inset") [] false =
      (Except.error InitError.typeError, []) :=
  ⟨by decide, rfl,
    invalid_action_rejected "EDIT" "faces" (Action.mk false "mesh.inset") []
      false rfl (by decide) (Or.inl rfl)⟩

/-- Claim C9: run() leaves the three configuration inputs, selection kind,
operator reference and parameter mapping, unchanged in the component
state. -/
theorem run_preserves_config (a : Applier) (opSem : OpSem) (m : Mesh) :
    (run a opSem m).applier.sel_type = a.sel_type ∧
    (run a opSem m).applier.action = a.action ∧
    (run a opSem m).applier.param_dict = a.param_dict := by
  rw [run_applier_eq]
  obtain ⟨h1, h2, h3, _⟩ := store_selection_fst_config a m
  exact ⟨h1, h2, h3⟩

/-- Claim C3: a run over a valid kind whose current selection is empty
raises the empty-selection warning, performs no host mutation at all (empty
event trace, mesh unchanged), and leaves only the cleared snapshot
assignment behind. -/
theorem empty_selection_warning_no_mutation (a : Applier) (opSem : OpSem)
    (m : Mesh) (hk : ValidKind a.sel_type)
    (he : kindSelected m a.sel_type = []) :
    run a opSem m =
      ⟨{ a with selection := [] }, [], m, some RunError.emptySelection⟩ := by
  obtain ⟨fl, hfl⟩ := kindGet?_eq_of_valid m hk
  have hsel : selectedIdxs fl = [] := by
    rw [← kindSelected_eq hfl]
    exact he
  exact run_of_store_err (store_selection_of_empty hfl hsel)

/-- Claim C3 witness: a run on a mesh with no selected vertices raises the
warning with an empty trace and an unchanged mesh. -/
theorem empty_selection_warning_no_mutation_witness :
    ValidKind "verts" ∧ kindSelected exampleMesh "verts" = [] ∧
    run { exampleApplier with sel_type := "verts" } opNoop exampleMesh =
      ⟨{ exampleApplier with sel_type := "verts", selection := [] }, [],
        exampleMesh, some RunError.emptySelection⟩ :=
  ⟨by decide, by decide,
    empty_selection_warning_no_mutation
      { exampleApplier with sel_type := "verts" } opNoop exampleMesh
      (by decide) (by decide)⟩

/-- Claim C8 counterexample: after a completed run, the component still
holds the captured snapshot in selection_, so the snapshot is not
discarded when the run completes. -/
theorem snapshot_discarded_counterexample :
    (run exampleApplier opNoop exampleMesh).error = none ∧
    (run exampleApplier opNoop exampleMesh).applier.selection = [0, 2] ∧
    (run exampleApplier opNoop exampleMesh).applier.selection ≠ [] := by
  refine ⟨by decide, by decide, by decide⟩

/-- Claim C8 (amended): the selection snapshot is captured at the start of
the run into selection_ and is retained there by the component after the
run; it is only replaced when a later run captures a new snapshot. -/
theorem snapshot_captured_and_retained (a : Applier) (opSem : OpSem)
    (m : Mesh) (hk : ValidKind a.sel_type) :
    (run a opSem m).applier.selection = kindSelected m a.sel_type := by
  rw [run_applier_eq]
  obtain ⟨fl, hfl⟩ := kindGet?_eq_of_valid m hk
  rw [kindSelected_eq hfl]
  by_cases he : selectedIdxs fl = []
  · rw [store_selection_of_empty hfl he, he]
  · rw [store_selection_of_nonempty hfl he]

/-- Claim C8 (amended) witness: on the example run the snapshot is still
held after completion. -/
theorem snapshot_captured_and_retained_witness :
    ValidKind "faces" ∧
    (run exampleApplier opNoop exampleMesh).applier.selection =
      kindSelected exampleMesh "faces" :=
  ⟨by decide,
    snapshot_captured_and_retained exampleApplier opNoop exampleMesh
      (by decide)⟩

end ApplyMeshOp

namespace ApplyMeshOp

/-- Claim C4: when the configured operator raises during some iteration of
the apply loop, the exception propagates out of run(): the trace ends at
the raising operator invocation (so neither the remaining iterations nor
the restore phase execute), and the mesh is left in the state passed to
that invocation, with no rollback. -/
theorem op_exception_aborts_run (a : Applier) (opSem : OpSem) (m : Mesh) :
    (run a opSem m).error = some RunError.opException →
    ∃ pre mc,
      (run a opSem m).events =
        pre ++ [Event.invoke a.action.idname a.param_dict mc] ∧
      (run a opSem m).mesh = mc := by
  rcases hs : store_selection a m with ⟨a', sevs, err⟩
  obtain ⟨-, hac, hpd, -⟩ := store_selection_fst_config a m
  rw [hs] at hac hpd
  simp only at hac hpd
  cases err with
  | some e =>
    rw [run_of_store_err hs]
    intro herr
    simp only at herr
    have hc := store_selection_error_cases a m
    rw [hs] at hc
    simp only at hc
    rcases hc with h1 | h1 | h1
    · simp at h1
    · rw [h1] at herr
      simp at herr
    · rw [h1] at herr
      simp at herr
  | none =>
    rw [run_of_store_ok hs]
    rcases hx : execute_action_on_selection a' opSem a'.selection
        (deselect_all a' m).2 with ⟨eevs, m2, er⟩
    cases er with
    | some e =>
      simp only
      intro herr
      have he : e = RunError.opException := by
        simpa using herr
      obtain ⟨pre, mc, hev, hm⟩ :=
        exec_opException_spec a' opSem a'.selection (deselect_all a' m).2
          (by rw [hx, he])
      rw [hx] at hev hm
      simp only at hev hm
      refine ⟨sevs ++ (deselect_all a' m).1 ++ pre, mc, ?_, hm⟩
      rw [hac, hpd] at hev
      rw [List.append_assoc (sevs ++ (deselect_all a' m).1) pre]
      rw [← hev]
    | none =>
      simp only
      intro herr
      exact absurd herr (restore_error_ne_op a' a'.selection m2)

/-- Claim C4 witness: with an operator that always raises, the example run
propagates the exception and its trace ends at the raising invocation. -/
theorem op_exception_aborts_run_witness :
    (run exampleApplier opRaise exampleMesh).error =
      some RunError.opException ∧
    ∃ pre mc,
      (run exampleApplier opRaise exampleMesh).events =
        pre ++ [Event.invoke exampleApplier.action.idname
          exampleApplier.param_dict mc] ∧
      (run exampleApplier opRaise exampleMesh).mesh = mc :=
  ⟨by decide,
    op_exception_aborts_run exampleApplier opRaise exampleMesh (by decide)⟩

end ApplyMeshOp

namespace ApplyMeshOp

/-- Claim C1: a run over a valid kind with a non-empty selection and a
no-op-equivalent operator (no topology change, no selection change of its
own) completes without error, leaves the selected set of the configured
kind equal to the initial one, and its trace ends with the captured
indices re-selected in their originally captured order. -/
theorem noop_run_restores_selection (a : Applier) (opSem : OpSem) (m : Mesh)
    (hop : ∀ p mm, opSem p mm = some mm) (hk : ValidKind a.sel_type)
    (hne : kindSelected m a.sel_type ≠ []) :
    (run a opSem m).error = none ∧
    kindGet? (run a opSem m).mesh a.sel_type = kindGet? m a.sel_type ∧
    ∃ pre, (run a opSem m).events =
      pre ++ (kindSelected m a.sel_type).map (Event.selectSingle a.sel_type) := by
  obtain ⟨fl, hfl⟩ := kindGet?_eq_of_valid m hk
  have hksel : kindSelected m a.sel_type = selectedIdxs fl := kindSelected_eq hfl
  rw [hksel] at hne
  rw [hksel]
  rw [run_of_store_ok (store_selection_of_nonempty hfl hne)]
  have hproj : ({ a with selection := selectedIdxs fl } : Applier).selection
      = selectedIdxs fl := rfl
  rw [hproj]
  simp only [deselect_all_snd]
  have hk' : ValidKind ({ a with selection := selectedIdxs fl } : Applier).sel_type := hk
  have hd : kindGet? (allDeselected m) a.sel_type = some (clearFlags fl) := by
    rw [kindGet?_allDeselected, hfl]
    rfl
  have hlt : ∀ i ∈ selectedIdxs fl, i < (clearFlags fl).length := by
    intro i hi
    rw [clearFlags_length]
    exact mem_selectedIdxs_lt hi
  obtain ⟨herr, fl', hget, hlen, hall⟩ :=
    exec_noop_spec { a with selection := selectedIdxs fl } opSem hop hk'
      (selectedIdxs fl) (allDeselected m) (clearFlags fl) hd
      (fun j => getD_clearFlags fl j) hlt
  rcases hx : execute_action_on_selection { a with selection := selectedIdxs fl }
      opSem (selectedIdxs fl) (allDeselected m) with ⟨eevs, m2, er⟩
  rw [hx] at herr hget
  simp only at herr hget
  subst herr
  simp only
  have hlt' : ∀ i ∈ selectedIdxs fl, i < fl'.length := by
    intro i hi
    rw [hlen, clearFlags_length]
    exact mem_selectedIdxs_lt hi
  obtain ⟨hrev, hrerr, fl'', hrget, hrlen, hrchar⟩ :=
    restore_selection_spec { a with selection := selectedIdxs fl } hk'
      (selectedIdxs fl) m2 fl' hget hlt'
  have hfl''eq : fl'' = fl := by
    apply eq_of_getD_eq
    · rw [hrlen, hlen, clearFlags_length]
    · intro j
      rw [hrchar j, hall j, Bool.false_or, decide_mem_selectedIdxs]
  refine ⟨hrerr, ?_, ?_⟩
  · rw [hrget, hfl''eq, hfl]
  · exact ⟨_, by rw [hrev]⟩

/-- Claim C1 witness: applying a no-op operator to the example mesh with
faces 0 and 2 selected restores exactly those faces, in captured order. -/
theorem noop_run_restores_selection_witness :
    ValidKind "faces" ∧ kindSelected exampleMesh "faces" ≠ [] ∧
    ((run exampleApplier opNoop exampleMesh).error = none ∧
      kindGet? (run exampleApplier opNoop exampleMesh).mesh "faces" =
        kindGet? exampleMesh "faces" ∧
      ∃ pre, (run exampleApplier opNoop exampleMesh).events =
        pre ++ (kindSelected exampleMesh "faces").map
          (Event.selectSingle "faces")) :=
  ⟨by decide, by decide,
    noop_run_restores_selection exampleApplier opNoop exampleMesh
      (fun _ _ => rfl) (by decide) (by decide)⟩

end ApplyMeshOp

namespace ApplyMeshOp

/-- Claim C2: in any run over a valid kind, at the moment of each operator
invocation exactly one element of the configured kind is selected, namely
the element at the current loop index of the captured selection, no matter
how many elements were originally selected and what the operator does. -/
theorem apply_loop_single_selection_invariant (a : Applier) (opSem : OpSem)
    (m : Mesh) (hk : ValidKind a.sel_type) :
    (invokedMeshes (run a opSem m).events).length ≤
      (kindSelected m a.sel_type).length ∧
    ∀ j, j < (invokedMeshes (run a opSem m).events).length →
      kindSelected ((invokedMeshes (run a opSem m).events).getD j default)
          a.sel_type
        = [(kindSelected m a.sel_type).getD j 0] := by
  obtain ⟨fl, hfl⟩ := kindGet?_eq_of_valid m hk
  rw [kindSelected_eq hfl]
  by_cases hne : selectedIdxs fl = []
  · rw [run_of_store_err (store_selection_of_empty hfl hne)]
    constructor
    · simp [invokedMeshes_nil]
    · intro j hj
      simp [invokedMeshes_nil] at hj
  · rw [run_of_store_ok (store_selection_of_nonempty hfl hne)]
    have hproj : ({ a with selection := selectedIdxs fl } : Applier).selection
        = selectedIdxs fl := rfl
    rw [hproj]
    simp only [deselect_all_snd]
    have hk' : ValidKind
        ({ a with selection := selectedIdxs fl } : Applier).sel_type := hk
    have hd : kindGet? (allDeselected m) a.sel_type = some (clearFlags fl) := by
      rw [kindGet?_allDeselected, hfl]
      rfl
    obtain ⟨hle, hinv⟩ :=
      exec_invokes_spec { a with selection := selectedIdxs fl } opSem hk'
        (selectedIdxs fl) (allDeselected m) (clearFlags fl) hd
        (fun j => getD_clearFlags fl j)
    rcases hx : execute_action_on_selection { a with selection := selectedIdxs fl }
        opSem (selectedIdxs fl) (allDeselected m) with ⟨eevs, m2, er⟩
    rw [hx] at hle hinv
    simp only at hle hinv
    cases er with
    | some e =>
      simp only
      rw [invokedMeshes_append, invokedMeshes_append, invokedMeshes_if_print,
        invokedMeshes_deselect, List.nil_append, List.nil_append]
      exact ⟨hle, hinv⟩
    | none =>
      simp only
      rw [invokedMeshes_append, invokedMeshes_append, invokedMeshes_append,
        invokedMeshes_if_print, invokedMeshes_deselect,
        restore_invokes_nil, List.nil_append, List.nil_append,
        List.append_nil]
      exact ⟨hle, hinv⟩

/-- Claim C2 witness: in the example run each of the two invocations sees
exactly the face at the corresponding captured index selected. -/
theorem apply_loop_single_selection_invariant_witness :
    ValidKind "faces" ∧
    ((invokedMeshes (run exampleApplier opNoop exampleMesh).events).length ≤
      (kindSelected exampleMesh "faces").length ∧
    ∀ j, j < (invokedMeshes (run exampleApplier opNoop exampleMesh).events).length →
      kindSelected
          ((invokedMeshes (run exampleApplier opNoop exampleMesh).events).getD
            j default) "faces"
        = [(kindSelected exampleMesh "faces").getD j 0]) :=
  ⟨by decide,
    apply_loop_single_selection_invariant exampleApplier opNoop exampleMesh
      (by decide)⟩

end ApplyMeshOp

namespace ApplyMeshOp

lemma store_verbose_pair {a₁ a₂ : Applier} (hst : a₁.sel_type = a₂.sel_type)
    (hsel : a₁.selection = a₂.selection) (m : Mesh) :
    (store_selection a₁ m).2.2 = (store_selection a₂ m).2.2 ∧
    ((store_selection a₁ m).1).selection = ((store_selection a₂ m).1).selection ∧
    hostCalls (store_selection a₁ m).2.1 = [] ∧
    hostCalls (store_selection a₂ m).2.1 = [] := by
  unfold store_selection
  rw [hst]
  rcases hq : kindGet? m a₂.sel_type with _ | fl
  · exact ⟨rfl, hsel, rfl, rfl⟩
  · simp only
    split_ifs <;> exact ⟨rfl, rfl, rfl, rfl⟩

/-- Claim C10: two runs whose component states differ only in the verbose
flag produce the same final mesh, the same outcome, the same retained
selection snapshot, and the same sequence of host calls; the flag changes
console output only. -/
theorem verbose_noninterference (a₁ a₂ : Applier) (opSem : OpSem) (m : Mesh)
    (hst : a₁.sel_type = a₂.sel_type) (hac : a₁.action = a₂.action)
    (hpd : a₁.param_dict = a₂.param_dict)
    (hsel : a₁.selection = a₂.selection) :
    (run a₁ opSem m).mesh = (run a₂ opSem m).mesh ∧
    (run a₁ opSem m).error = (run a₂ opSem m).error ∧
    (run a₁ opSem m).applier.selection = (run a₂ opSem m).applier.selection ∧
    hostCalls (run a₁ opSem m).events = hostCalls (run a₂ opSem m).events := by
  rcases hs₁ : store_selection a₁ m with ⟨a₁', sevs₁, err₁⟩
  rcases hs₂ : store_selection a₂ m with ⟨a₂', sevs₂, err₂⟩
  obtain ⟨herr, hsl, hsv₁, hsv₂⟩ := store_verbose_pair hst hsel m
  obtain ⟨h₁st, h₁ac, h₁pd, -⟩ := store_selection_fst_config a₁ m
  obtain ⟨h₂st, h₂ac, h₂pd, -⟩ := store_selection_fst_config a₂ m
  rw [hs₁, hs₂] at herr hsl
  rw [hs₁] at hsv₁ h₁st h₁ac h₁pd
  rw [hs₂] at hsv₂ h₂st h₂ac h₂pd
  simp only at herr hsl hsv₁ hsv₂ h₁st h₁ac h₁pd h₂st h₂ac h₂pd
  subst herr
  have hst' : a₁'.sel_type = a₂'.sel_type := by
    rw [h₁st, h₂st, hst]
  have hac' : a₁'.action = a₂'.action := by
    rw [h₁ac, h₂ac, hac]
  have hpd' : a₁'.param_dict = a₂'.param_dict := by
    rw [h₁pd, h₂pd, hpd]
  cases err₁ with
  | some e =>
    rw [run_of_store_err hs₁, run_of_store_err hs₂]
    exact ⟨rfl, rfl, hsl, by rw [hsv₁, hsv₂]⟩
  | none =>
    rw [run_of_store_ok hs₁, run_of_store_ok hs₂]
    rw [hsl]
    simp only [deselect_all_snd]
    obtain ⟨h2, h1⟩ := exec_verbose_spec hst' hac' hpd' opSem
      a₂'.selection (allDeselected m)
    rcases hx₁ : execute_action_on_selection a₁' opSem a₂'.selection
        (allDeselected m) with ⟨eevs₁, m2₁, er₁⟩
    rcases hx₂ : execute_action_on_selection a₂' opSem a₂'.selection
        (allDeselected m) with ⟨eevs₂, m2₂, er₂⟩
    rw [hx₁, hx₂] at h2 h1
    simp only [Prod.mk.injEq] at h2
    obtain ⟨hm2, her⟩ := h2
    subst hm2
    subst her
    cases er₁ with
    | some e =>
      simp only
      refine ⟨by trivial, by trivial, hsl, ?_⟩
      rw [hostCalls_append, hostCalls_append, hostCalls_append,
        hostCalls_append, hsv₁, hsv₂, hostCalls_deselect, hostCalls_deselect,
        h1]
    | none =>
      simp only
      rw [restore_verbose_eq hst' a₂'.selection m2₁]
      refine ⟨by trivial, by trivial, hsl, ?_⟩
      rw [hostCalls_append, hostCalls_append, hostCalls_append,
        hostCalls_append, hostCalls_append, hostCalls_append,
        hsv₁, hsv₂, hostCalls_deselect, hostCalls_deselect, h1]

/-- Claim C10 witness: the verbose and quiet example runs agree on final
mesh, outcome, snapshot and host calls. -/
theorem verbose_noninterference_witness :
    (run { exampleApplier with verbose := true } opNoop exampleMesh).mesh =
      (run exampleApplier opNoop exampleMesh).mesh ∧
    (run { exampleApplier with verbose := true } opNoop exampleMesh).error =
      (run exampleApplier opNoop exampleMesh).error ∧
    (run { exampleApplier with verbose := true } opNoop
        exampleMesh).applier.selection =
      (run exampleApplier opNoop exampleMesh).applier.selection ∧
    hostCalls (run { exampleApplier with verbose := true } opNoop
        exampleMesh).events =
      hostCalls (run exampleApplier opNoop exampleMesh).events :=
  verbose_noninterference { exampleApplier with verbose := true }
    exampleApplier opNoop exampleMesh rfl rfl rfl rfl

end ApplyMeshOp
